import Mathlib

-- Shallow embedding of the gadz document-query layer: the MongoDB-style
-- filter/update compilers (src/operations.ts and src/query-builder.ts), the
-- collection update/insert paths (src/collection.ts), the savepoint-nested
-- transaction manager (src/connection.ts) and the promoted-column
-- synchronizer (createIndex). JavaScript runtime values are modelled by the
-- inductive type Value below; JS numbers are modelled as integers (no claim
-- here depends on float formatting). The SQLite engine is an external
-- collaborator: where code executes a compiled WHERE clause, the embedding
-- takes the engine row-evaluation as an explicit function parameter, except
-- for the empty clause, whose semantics (all rows) is fixed by SQL.

/-- JSON-like runtime values of the host language: document fields, filter
operands and SQL parameters. -/
inductive Value where
| vNull : Value
| vBool : Bool → Value
| vNum : Int → Value
| vStr : String → Value
| vArr : List Value → Value
| vObj : List (String × Value) → Value

open Value

/-- A document or filter object: ordered field/value pairs
(JS object iteration order). -/
abbrev Doc := List (String × Value)

/-- The single-quote character, kept out of string literals. -/
def sqc : String := String.mk [Char.ofNat 39]

/-- The double-quote character. -/
def dqc : String := String.mk [Char.ofNat 34]

/-- Escaping of one character inside a JSON string literal (models the
JSON.stringify builtin of the host runtime). -/
def jsonEscapeChar (c : Char) : String :=
  if c = Char.ofNat 34 then String.mk [Char.ofNat 92, Char.ofNat 34]
  else if c = Char.ofNat 92 then String.mk [Char.ofNat 92, Char.ofNat 92]
  else String.mk [c]

/-- A JSON string literal with its surrounding double quotes. -/
def jsonQuote (s : String) : String :=
  dqc ++ String.join (s.data.map jsonEscapeChar) ++ dqc

/-- Models the JSON.stringify builtin of the host runtime on the value
fragment used by this code base. -/
def jsonStringify : Value → String
  | vNull => "null"
  | vBool true => "true"
  | vBool false => "false"
  | vNum n => toString n
  | vStr s => jsonQuote s
  | vArr l => "[" ++ String.intercalate "," (l.attach.map (fun x => jsonStringify x.1)) ++ "]"
  | vObj l =>
      "\x7b" ++
        String.intercalate ","
          (l.attach.map (fun x => jsonQuote x.1.1 ++ ":" ++ jsonStringify x.1.2)) ++
      "\x7d"
decreasing_by
  · have h := List.sizeOf_lt_of_mem x.2
    have h3 : sizeOf (vArr l) = 1 + sizeOf l := by simp
    omega
  · have h := List.sizeOf_lt_of_mem x.2
    have h2 : sizeOf x.1.2 < sizeOf x.1 := by
      obtain ⟨⟨a, b⟩, hm⟩ := x
      simp
    have h3 : sizeOf (vObj l) = 1 + sizeOf l := by simp
    omega

/-- JS truthiness of a value. -/
def truthy : Value → Bool
  | vNull => false
  | vBool b => b
  | vNum n => n != 0
  | vStr s => s != ""
  | vArr _ => true
  | vObj _ => true

/-- Models Object.entries: own enumerable entries of an object, or
index/element pairs of an array; primitives have none. -/
def jsEntries : Value → List (String × Value)
  | vObj l => l
  | vArr l => l.enum.map (fun p => (toString p.1, p.2))
  | _ => []

/-- Fields contributed by a JS object spread of a value: object entries,
array index/element pairs, or index/character pairs of a string. -/
def spreadFields : Value → List (String × Value)
  | vStr s => s.data.enum.map (fun p => (toString p.1, vStr (String.mk [p.2])))
  | v => jsEntries v

/-- True exactly on the null value. -/
def isVNull : Value → Bool
  | vNull => true
  | _ => false

/-- Models the String conversion of a value (Array.prototype.join maps null
elements to the empty string). -/
def jsToString : Value → String
  | vNull => "null"
  | vBool true => "true"
  | vBool false => "false"
  | vNum n => toString n
  | vStr s => s
  | vArr l => String.intercalate ","
      (l.attach.map (fun x => if isVNull x.1 then "" else jsToString x.1))
  | vObj _ => "[object Object]"
decreasing_by
  · have h := List.sizeOf_lt_of_mem x.2
    have h3 : sizeOf (vArr l) = 1 + sizeOf l := by simp
    omega

/-- Property read obj[k]: JS yields undefined when the key is absent;
undefined and null coincide in this model (both falsy, both spread nothing). -/
def jsGet (d : Doc) (k : String) : Value :=
  match d.lookup k with
  | some v => v
  | none => vNull

/-- JS assignment obj[k] = v: overwrites in place when the key exists,
otherwise appends the new key. -/
def setKey (d : Doc) (k : String) (v : Value) : Doc :=
  if d.any (fun kv => kv.1 == k) then
    d.map (fun kv => if kv.1 == k then (k, v) else kv)
  else d ++ [(k, v)]

/-- Models Object.assign / object spread: fields of src merged into d,
last write wins, original key positions kept. -/
def objAssign (d : Doc) (src : Doc) : Doc :=
  src.foldl (fun acc kv => setKey acc kv.1 kv.2) d

/-- Models the delete operator / rest-destructuring removal of one key. -/
def removeKey (d : Doc) (k : String) : Doc :=
  d.filter (fun kv => kv.1 != k)

/-- One placeholder per array element, comma separated, as produced by
operatorValue.map(() => "?").join(", "). -/
def qmarks : List Value → String
  | [] => ""
  | [_] => "?"
  | _ :: rest => "?" ++ ", " ++ qmarks rest

/-- The JSON path-extraction expression over the serialized body column. -/
def jsonExtract (key : String) : String :=
  "JSON_EXTRACT(data, " ++ sqc ++ "$." ++ key ++ sqc ++ ")"

/-- The float cast wrapped around path extraction for numeric comparisons. -/
def castReal (key : String) : String :=
  "CAST(" ++ jsonExtract key ++ " AS REAL)"

/-- Boolean list-prefix test (kernel-reducible). -/
def listPrefixB : List Char → List Char → Bool
  | [], _ => true
  | _ :: _, [] => false
  | a :: as, b :: bs => a = b && listPrefixB as bs

/-- Models String.prototype.startsWith. -/
def jsStartsWith (s pat : String) : Bool :=
  listPrefixB pat.data s.data

/-- Models String.prototype.endsWith. -/
def jsEndsWith (s pat : String) : Bool :=
  listPrefixB pat.data.reverse s.data.reverse

/-- Position of the first occurrence of a pattern, if any. -/
def findSub : List Char → List Char → Option Nat
  | [], pat => if listPrefixB pat [] then some 0 else none
  | l :: rest, pat =>
    if listPrefixB pat (l :: rest) then some 0 else (findSub rest pat).map (· + 1)

/-- Models String.prototype.split with a one-character separator. -/
def splitCharAux (sep : Char) : List Char → List Char → List (List Char)
  | [], acc => [acc.reverse]
  | c :: rest, acc =>
    if c = sep then acc.reverse :: splitCharAux sep rest []
    else splitCharAux sep rest (c :: acc)

/-- Models String.prototype.split with a one-character separator. -/
def jsSplit (s : String) (sep : Char) : List String :=
  (splitCharAux sep s.data []).map String.mk

/-- JS whitespace for trim purposes. -/
def isJsSpace (c : Char) : Bool :=
  c = Char.ofNat 32 ∨ c = Char.ofNat 9 ∨ c = Char.ofNat 10 ∨ c = Char.ofNat 13 ∨
    c = Char.ofNat 12 ∨ c = Char.ofNat 11

/-- Models String.prototype.trim. -/
def jsTrim (s : String) : String :=
  String.mk (((s.data.dropWhile isJsSpace).reverse.dropWhile isJsSpace).reverse)

namespace Ops

/-- Parameter encoding of an equality operand in src/operations.ts: booleans
as 1/0, strings as-is, everything else through JSON.stringify. -/
def literalParam : Value → Value
  | vBool b => vNum (if b then 1 else 0)
  | vStr s => vStr s
  | v => vStr (jsonStringify v)

/-- One iteration of the operator switch of buildWhereClause in
src/operations.ts: the conditions and parameters it pushes, or the thrown
error. -/
def operatorCond (key op : String) (ov : Value) : Except String (List String × List Value) :=
  if op = "$eq" then .ok ([jsonExtract key ++ " = ?"], [literalParam ov])
  else if op = "$ne" then .ok ([jsonExtract key ++ " != ?"], [literalParam ov])
  else if op = "$gt" then .ok ([castReal key ++ " > ?"], [ov])
  else if op = "$gte" then .ok ([castReal key ++ " >= ?"], [ov])
  else if op = "$lt" then .ok ([castReal key ++ " < ?"], [ov])
  else if op = "$lte" then .ok ([castReal key ++ " <= ?"], [ov])
  else if op = "$in" then
    match ov with
    | vArr l => .ok ([jsonExtract key ++ " IN (" ++ qmarks l ++ ")"], l.map literalParam)
    | _ => .ok ([], [])
  else if op = "$nin" then
    match ov with
    | vArr l => .ok ([jsonExtract key ++ " NOT IN (" ++ qmarks l ++ ")"], l.map literalParam)
    | _ => .ok ([], [])
  else if op = "$exists" then
    .ok ((if truthy ov then [jsonExtract key ++ " IS NOT NULL"]
          else [jsonExtract key ++ " IS NULL"]), [])
  else .error ("Unsupported operator: " ++ op)

/-- The operator loop over Object.entries(value). -/
def operatorFold (key : String) : List (String × Value) → Except String (List String × List Value)
  | [] => .ok ([], [])
  | (op, ov) :: rest => do
      let (c, p) ← operatorCond key op ov
      let (cs, ps) ← operatorFold key rest
      .ok (c ++ cs, p ++ ps)

/-- Conditions and parameters contributed by one filter entry in
buildWhereClause of src/operations.ts. -/
def entryCond : String × Value → Except String (List String × List Value)
  | (key, value) =>
    if key = "id" ∨ key = "_id" then .ok (["id = ?"], [value])
    else
      match value with
      | vObj kvs => operatorFold key kvs
      | vArr l => operatorFold key (jsEntries (vArr l))
      | vBool b => .ok ([jsonExtract key ++ " = ?"], [vNum (if b then 1 else 0)])
      | vStr s => .ok ([jsonExtract key ++ " = ?"], [vStr s])
      | v => .ok ([jsonExtract key ++ " = ?"], [vStr (jsonStringify v)])

/-- The entry loop of buildWhereClause. -/
def filterFold : Doc → Except String (List String × List Value)
  | [] => .ok ([], [])
  | e :: rest => do
      let (c, p) ← entryCond e
      let (cs, ps) ← filterFold rest
      .ok (c ++ cs, p ++ ps)

/-- buildWhereClause of src/operations.ts: WHERE-clause text and ordered
parameter list of a MongoDB-style filter, or the thrown compile error. -/
def buildWhereClause (filter : Doc) : Except String (String × List Value) :=
  if filter.isEmpty then .ok ("", [])
  else do
    let (conds, params) ← filterFold filter
    .ok ((if conds.isEmpty then "" else "WHERE " ++ String.intercalate " AND " conds), params)

/-- buildOrderClause of src/operations.ts. -/
def buildOrderClause (sort : List (String × Int)) : String :=
  if sort.isEmpty then ""
  else
    "ORDER BY " ++ String.intercalate ", " (sort.map (fun p =>
      (if p.1 = "id" ∨ p.1 = "_id" then "id" else jsonExtract p.1) ++
      (if p.2 = 1 then " ASC" else " DESC")))

/-- find options of src/operations.ts. -/
structure FindOptions where
  limitOpt : Option Int
  skipOpt : Option Int
  sort : List (String × Int)

/-- JS truthiness of options.limit / options.skip. -/
def optTruthy : Option Int → Bool
  | none => false
  | some n => n != 0

/-- The SQL text (and parameters) assembled by find in src/operations.ts:
LIMIT is appended only when options.limit is truthy, OFFSET only when
options.skip is truthy — independently of each other. -/
def findSql (table : String) (filter : Doc) (opts : FindOptions) :
    Except String (String × List Value) := do
  let (whereClause, params) ← buildWhereClause filter
  let orderClause := buildOrderClause opts.sort
  let base := "SELECT id, data, created_at, updated_at FROM " ++ table ++ " " ++
    whereClause ++ " " ++ orderClause
  let withLimit :=
    match opts.limitOpt with
    | some n => if n != 0 then base ++ " LIMIT " ++ toString n else base
    | none => base
  let withSkip :=
    match opts.skipOpt with
    | some m => if m != 0 then withLimit ++ " OFFSET " ++ toString m else withLimit
    | none => withLimit
  .ok (withSkip, params)

end Ops

namespace QB

/-- Replacement of the first occurrence of a pattern, as the JS
String.prototype.replace with a string pattern does. -/
def replaceFirst (s pat repl : String) : String :=
  match findSub s.data pat.data with
  | none => s
  | some i => String.mk (s.data.take i) ++ repl ++ String.mk (s.data.drop (i + pat.data.length))

/-- Substring test, as the JS String.prototype.includes. -/
def strContains (hay pat : String) : Bool :=
  decide (pat.data <:+: hay.data)

/-- The static comparison-operator map of QueryBuilder, restricted to the
four cases that read it. -/
def cmpSql (op : String) : String :=
  if op = "$gt" then ">" else if op = "$gte" then ">=" else if op = "$lt" then "<" else "<="

/-- Parameter encoding of $eq / $ne operands in QueryBuilder: anything of JS
type object (null, arrays and objects included) goes through JSON.stringify. -/
def eqParam : Value → Value
  | vNull => vStr (jsonStringify vNull)
  | vArr l => vStr (jsonStringify (vArr l))
  | vObj o => vStr (jsonStringify (vObj o))
  | v => v

/-- One EXISTS/JSON_EACH disjunct of the $in handling on extracted fields. -/
def jsonEachExists (fieldName : String) : String :=
  "EXISTS (SELECT 1 FROM JSON_EACH(data, " ++ sqc ++ "$." ++ fieldName ++ sqc ++
    ") WHERE value = ?)"

/-- One iteration of the switch in buildOperatorCondition of
src/query-builder.ts. The switch has no default case: an unrecognized
operator contributes nothing. -/
def opCondStep (field op : String) (ov : Value) : List String × List Value :=
  if op = "$eq" then ([field ++ " = ?"], [eqParam ov])
  else if op = "$ne" then ([field ++ " != ?"], [eqParam ov])
  else if op = "$gt" ∨ op = "$gte" ∨ op = "$lt" ∨ op = "$lte" then
    ([field ++ " " ++ cmpSql op ++ " ?"], [ov])
  else if op = "$in" then
    match ov with
    | vArr l =>
      if strContains field "JSON_EXTRACT" then
        let fieldName :=
          replaceFirst (replaceFirst field ("JSON_EXTRACT(data, " ++ sqc ++ "$.") "")
            (sqc ++ ")") ""
        (["(" ++ String.intercalate " OR " (l.map (fun _ => jsonEachExists fieldName)) ++ ")"], l)
      else ([field ++ " IN (" ++ qmarks l ++ ")"], l)
    | _ => ([], [])
  else if op = "$nin" then
    match ov with
    | vArr l => ([field ++ " NOT IN (" ++ qmarks l ++ ")"], l)
    | _ => ([], [])
  else if op = "$exists" then
    ((if truthy ov then [field ++ " IS NOT NULL"] else [field ++ " IS NULL"]), [])
  else if op = "$regex" then
    let p := jsToString ov
    let lp := if jsStartsWith p "^" then p.drop 1 ++ "%"
      else if jsEndsWith p "$" then "%" ++ p.dropRight 1
      else "%" ++ p ++ "%"
    ([field ++ " LIKE ?"], [vStr lp])
  else ([], [])

/-- The loop over Object.entries(operators). -/
def opFold (field : String) : List (String × Value) → List String × List Value
  | [] => ([], [])
  | (op, ov) :: rest =>
    let (c, p) := opCondStep field op ov
    let (cs, ps) := opFold field rest
    (c ++ cs, p ++ ps)

/-- buildOperatorCondition of src/query-builder.ts. -/
def buildOperatorCondition (field : String) (kvs : List (String × Value)) :
    String × List Value :=
  let r := opFold field kvs
  (String.intercalate " AND " r.1, r.2)

/-- Parameter of a literal _id comparison: value?.toString() || value. -/
def idParam : Value → Value
  | vNull => vNull
  | v => if jsToString v = "" then v else vStr (jsToString v)

/-- buildFieldCondition of src/query-builder.ts. -/
def buildFieldCondition (field : String) (value : Value) : String × List Value :=
  if field = "_id" then
    match value with
    | vObj kvs => buildOperatorCondition "_id" kvs
    | v => ("_id = ?", [idParam v])
  else
    match value with
    | vObj kvs =>
      if kvs.any (fun kv => jsStartsWith kv.1 "$") then
        buildOperatorCondition (jsonExtract field) kvs
      else (jsonExtract field ++ " = ?", [vStr (jsonStringify (vObj kvs))])
    | vArr l => (jsonExtract field ++ " = ?", [vStr (jsonStringify (vArr l))])
    | v => (jsonExtract field ++ " = ?", [v])

/-- The entry loop of buildWhereClause in src/query-builder.ts: an entry
whose condition trims to the empty string contributes neither condition nor
parameters. -/
def whereFold : Doc → List String × List Value
  | [] => ([], [])
  | (f, v) :: rest =>
    let (c, ps) := buildFieldCondition f v
    let (cs, pss) := whereFold rest
    if jsTrim c ≠ "" then (c :: cs, ps ++ pss) else (cs, pss)

/-- buildWhereClause of src/query-builder.ts. -/
def buildWhereClause (filter : Doc) : String × List Value :=
  if filter.isEmpty then ("", [])
  else
    let r := whereFold filter
    ((if r.1.isEmpty then "" else "WHERE " ++ String.intercalate " AND " r.1), r.2)

/-- buildOrderClause of src/query-builder.ts. -/
def buildOrderClause (sort : List (String × Int)) : String :=
  if sort.isEmpty then ""
  else
    "ORDER BY " ++ String.intercalate ", " (sort.map (fun p =>
      (if p.1 = "_id" then "_id" else jsonExtract p.1) ++
      (if p.2 = 1 then " ASC" else " DESC")))

/-- Pagination options handed to buildLimitClause. -/
structure FindOptions where
  limitOpt : Option Int
  skipOpt : Option Int

/-- buildLimitClause of src/query-builder.ts: a limit (with optional
offset), or the 999999999 sentinel when only a skip is given — SQLite
rejects OFFSET without LIMIT. -/
def buildLimitClause (opts : FindOptions) : String :=
  match opts.limitOpt with
  | some n =>
    (match opts.skipOpt with
     | some m => "LIMIT " ++ toString n ++ " OFFSET " ++ toString m
     | none => "LIMIT " ++ toString n)
  | none =>
    (match opts.skipOpt with
     | some m => "LIMIT 999999999 OFFSET " ++ toString m
     | none => "")

end QB

namespace Conn

/-- The transaction bookkeeping of a DatabaseConnection in
src/connection.ts. -/
structure ConnState where
  transactionDepth : Nat
  inTransaction : Bool

/-- beginTransaction: the successor state and the SQL it executes. BEGIN at
depth zero, a savepoint named after the current depth otherwise. -/
def beginTransaction (c : ConnState) : ConnState × List String :=
  if c.transactionDepth = 0 then
    ({ c with transactionDepth := c.transactionDepth + 1, inTransaction := true }, ["BEGIN;"])
  else
    ({ c with transactionDepth := c.transactionDepth + 1 },
     ["SAVEPOINT sp_" ++ toString c.transactionDepth ++ ";"])

/-- commitTransaction: COMMIT only when the decremented depth reaches zero,
otherwise RELEASE of the matching savepoint; an error at depth zero. -/
def commitTransaction (c : ConnState) : Except String (ConnState × List String) :=
  if c.transactionDepth = 0 then .error "No active transaction"
  else
    let d := c.transactionDepth - 1
    if d = 0 then
      .ok ({ c with transactionDepth := d, inTransaction := false }, ["COMMIT;"])
    else
      .ok ({ c with transactionDepth := d }, ["RELEASE SAVEPOINT sp_" ++ toString d ++ ";"])

/-- rollbackTransaction: full ROLLBACK when the decremented depth reaches
zero, otherwise rollback to the matching savepoint. -/
def rollbackTransaction (c : ConnState) : Except String (ConnState × List String) :=
  if c.transactionDepth = 0 then .error "No active transaction"
  else
    let d := c.transactionDepth - 1
    if d = 0 then
      .ok ({ c with transactionDepth := d, inTransaction := false }, ["ROLLBACK;"])
    else
      .ok ({ c with transactionDepth := d }, ["ROLLBACK TO SAVEPOINT sp_" ++ toString d ++ ";"])

end Conn

/-- JS addition restricted to the value fragment reachable from $inc:
numeric addition for numbers, booleans and null, string concatenation after
String conversion otherwise. -/
def jsPlus (a b : Value) : Value :=
  match a, b with
  | vNum x, vNum y => vNum (x + y)
  | vBool x, vNum y => vNum ((if x then 1 else 0) + y)
  | vNull, vNum y => vNum y
  | x, vNum y => vStr (jsToString x ++ toString y)
  | x, y => vStr (jsToString x ++ jsToString y)

namespace Ops

/-- A stored row of a collection table in src/operations.ts: integer
primary key and the JSON.parse of its data column. -/
structure OpsRow where
  oid : Int
  odata : Value

/-- Result shape of updateMany in src/operations.ts. -/
structure UpdateManyResult where
  matchedCount : Nat
  modifiedCount : Nat
  upsertedId : Option Int
deriving DecidableEq

/-- Engine evaluation of a compiled WHERE clause on one row: SQLite is an
external collaborator, so row matching is a parameter; the empty clause is
fixed to match every row (the SELECT falls back to WHERE 1=1). -/
def matching (em : String → List Value → OpsRow → Bool) (table : List OpsRow)
    (wc : String) (ps : List Value) : List OpsRow :=
  if wc = "" then table else table.filter (em wc ps)

/-- updateMany of src/operations.ts over a table state: the $set check
precedes the transaction, matched rows get the $set fields spread over
their parsed body, and with upsert on a zero-match filter the $set document
itself is inserted under a fresh engine-assigned id. The first component is
the table after the call (unchanged when an error is thrown). -/
def updateManyRun (em : String → List Value → OpsRow → Bool) (nextId : Int)
    (table : List OpsRow) (filter : Doc) (update : Doc) (upsert : Bool) :
    List OpsRow × Except String UpdateManyResult :=
  if !truthy (jsGet update "$set") then
    (table, .error "updateMany requires $set operator")
  else
    match buildWhereClause filter with
    | .error e => (table, .error e)
    | .ok (wc, ps) =>
      let existing := matching em table wc ps
      if existing.isEmpty then
        if upsert then
          (table ++ [⟨nextId, jsGet update "$set"⟩], .ok ⟨0, 0, some nextId⟩)
        else (table, .ok ⟨0, 0, none⟩)
      else
        let su := spreadFields (jsGet update "$set")
        let table2 := table.map (fun r =>
          if existing.any (fun e => e.oid == r.oid) then
            ⟨r.oid, vObj (objAssign (spreadFields r.odata) su)⟩
          else r)
        (table2, .ok ⟨existing.length, existing.length, none⟩)

/-- deleteMany of src/operations.ts over a table state: an empty compiled
predicate is rejected before the DELETE is prepared; otherwise exactly the
engine-matched rows are removed and counted. -/
def deleteManyRun (em : String → List Value → OpsRow → Bool)
    (table : List OpsRow) (filter : Doc) : List OpsRow × Except String Nat :=
  match buildWhereClause filter with
  | .error e => (table, .error e)
  | .ok (wc, ps) =>
    if wc = "" then
      (table, .error "deleteMany requires a filter to prevent accidental deletion of all documents")
    else
      let remaining := table.filter (fun r => !em wc ps r)
      (remaining, .ok (table.length - remaining.length))

end Ops

namespace Coll

/-- A stored row of a collection table in src/collection.ts: TEXT primary
key _id and the JSON.parse of its data column. -/
structure CRow where
  rid : String
  rdata : Doc

/-- Result shape of updateOne/updateMany in src/collection.ts. -/
structure CollUpdateResult where
  matchedCount : Nat
  modifiedCount : Nat
  upsertedCount : Nat
  upsertedId : Option String
deriving DecidableEq

/-- The rows a find over this filter returns, before deserialization:
engine row matching is a parameter, the empty clause selects all rows, and
the optional LIMIT truncates in engine (here: list) order. -/
def findRows (em : String → List Value → CRow → Bool) (table : List CRow)
    (filter : Doc) (limitOpt : Option Nat) : List CRow :=
  let wp := QB.buildWhereClause filter
  let all := if wp.1 = "" then table else table.filter (em wp.1 wp.2)
  match limitOpt with
  | some n => all.take n
  | none => all

/-- deserializeDocument without projection: _id first, then the body
fields. -/
def deserialize (r : CRow) : Doc :=
  objAssign [("_id", vStr r.rid)] r.rdata

/-- insertOne of src/collection.ts: a missing (or falsy) _id is replaced by
a fresh ObjectId (the generated id is a parameter), the _id key is split
off the stored body, and a duplicate key surfaces as the caught UNIQUE
constraint error. -/
def insertOne (genId : String) (table : List CRow) (document : Doc) :
    Except String (List CRow × String) :=
  let doc := if truthy (jsGet document "_id") then document
    else setKey document "_id" (vStr genId)
  let id := jsToString (jsGet doc "_id")
  let data := removeKey doc "_id"
  if table.any (fun r => r.rid == id) then
    .error ("Document with _id " ++ id ++ " already exists")
  else
    .ok (table ++ [⟨id, data⟩], id)

/-- setNestedField of src/collection.ts on the serialized view of a
document: descends through plain objects, creates missing or non-object
intermediates as fresh objects, and a write through an array value is an
expando property that JSON serialization never shows (hence a no-op here). -/
def setNestedKeys : Doc → List String → Value → Doc
  | d, [], _ => d
  | d, [k], v => setKey d k v
  | d, k :: k2 :: rest, v =>
    match jsGet d k with
    | vObj o => setKey d k (vObj (setNestedKeys o (k2 :: rest) v))
    | vArr _ => d
    | _ => setKey d k (vObj (setNestedKeys [] (k2 :: rest) v))

/-- The in-memory application of $set, $unset and $inc to one fetched
document in handleUpdateOperators (after its _id is deleted): $set walks
dotted paths, $unset deletes top-level keys, $inc adds to the current value
defaulting to 0 when falsy. -/
def applyUpdateOps (update : Doc) (doc : Doc) : Doc :=
  let d0 := removeKey doc "_id"
  let d1 := if truthy (jsGet update "$set") then
      (spreadFields (jsGet update "$set")).foldl
        (fun acc kv => setNestedKeys acc (jsSplit kv.1 (Char.ofNat 46)) kv.2) d0
    else d0
  let d2 := if truthy (jsGet update "$unset") then
      (spreadFields (jsGet update "$unset")).foldl (fun acc kv => removeKey acc kv.1) d1
    else d1
  if truthy (jsGet update "$inc") then
    (spreadFields (jsGet update "$inc")).foldl
      (fun acc kv =>
        setKey acc kv.1
          (jsPlus (if truthy (jsGet acc kv.1) then jsGet acc kv.1 else vNum 0) kv.2)) d2
  else d2

/-- handleUpdateOperators of src/collection.ts: on a zero-match filter with
upsert, the new document is the whole filter object spread first, then the
$set fields assigned over it, and the result reports upsertedCount 1 with
the inserted id; otherwise each fetched document is rewritten in memory and
stored back under its _id. -/
def handleUpdateOperators (em : String → List Value → CRow → Bool) (genId : String)
    (table : List CRow) (filter update : Doc) (multi upsert : Bool) :
    Except String (List CRow × CollUpdateResult) :=
  let docs := (findRows em table filter (if multi then none else some 1)).map deserialize
  if docs.isEmpty ∧ upsert then
    let newDoc0 := objAssign [] filter
    let newDoc := if truthy (jsGet update "$set") then
        objAssign newDoc0 (spreadFields (jsGet update "$set"))
      else newDoc0
    match insertOne genId table newDoc with
    | .error e => .error e
    | .ok (table2, iid) => .ok (table2, ⟨0, 0, 1, some iid⟩)
  else
    let table2 := docs.foldl (fun t doc =>
      let did := jsToString (jsGet doc "_id")
      let nd := applyUpdateOps update doc
      t.map (fun r => if r.rid == did then ⟨r.rid, nd⟩ else r)) table
    .ok (table2, ⟨docs.length, docs.length, 0, none⟩)

/-- updateDocuments of src/collection.ts: updates with any of $set, $unset,
$inc go through handleUpdateOperators; any other update object replaces the
whole stored body of the matched rows (all of them with multi, the first
one otherwise) with the update itself minus _id, without error. -/
def updateDocuments (em : String → List Value → CRow → Bool) (genId : String)
    (table : List CRow) (filter update : Doc) (multi upsert : Bool) :
    Except String (List CRow × CollUpdateResult) :=
  if truthy (jsGet update "$set") ∨ truthy (jsGet update "$unset") ∨
      truthy (jsGet update "$inc") then
    handleUpdateOperators em genId table filter update multi upsert
  else
    let updateData := removeKey update "_id"
    let targets := findRows em table filter (if multi then none else some 1)
    let table2 := table.map (fun r =>
      if targets.any (fun t => t.rid == r.rid) then ⟨r.rid, updateData⟩ else r)
    .ok (table2, ⟨targets.length, targets.length, 0, none⟩)

/-- updateMany of src/collection.ts: updateDocuments with multi set. -/
def updateMany (em : String → List Value → CRow → Bool) (genId : String)
    (table : List CRow) (filter update : Doc) (upsert : Bool) :
    Except String (List CRow × CollUpdateResult) :=
  updateDocuments em genId table filter update true upsert

end Coll

namespace Idx

/-- SQLite JSON_EXTRACT over the parsed body: walk the dotted path through
nested objects, SQL NULL (here vNull) when a segment is missing or not an
object. -/
def extractPath (v : Value) : List String → Value
  | [] => v
  | k :: rest =>
    match v with
    | vObj o => extractPath (jsGet o k) rest
    | _ => vNull

/-- A stored row as the promoted-column synchronizer sees it: id, parsed
body, and the values of the promoted columns. -/
structure IdxRow where
  rid : Int
  rdata : Value
  promoted : Doc

/-- Per-table schema state touched by createIndex in the constraints
module: column names, trigger names, index names and the rows. -/
structure IdxState where
  cols : List String
  triggers : List String
  indexes : List String
  rows : List IdxRow

/-- The replace. /[^a-zA-Z0-9_]/ → underscore sanitization of index
names. -/
def sanitizeChar (c : Char) : Char :=
  if c.isAlphanum ∨ c = Char.ofNat 95 then c else Char.ofNat 95

/-- Sanitized index-name fragment. -/
def sanitize (str : String) : String :=
  String.mk (str.data.map sanitizeChar)

/-- One iteration of the field loop in createIndex: add the column unless
present, drop and recreate the two sync triggers, and backfill every row
from the body. The UNIQUE qualifier of a freshly added column is a
constraint on the engine side; it adds no schema object tracked here. -/
def promoteField (tableName : String) (s : IdxState) (field : String) : IdxState :=
  let colName := field
  let s1 := if colName ∈ s.cols then s else { s with cols := s.cols ++ [colName] }
  let ti := "sync_" ++ tableName ++ "_" ++ colName ++ "_insert"
  let tu := "sync_" ++ tableName ++ "_" ++ colName ++ "_update"
  let s2 := { s1 with triggers := (s1.triggers.filter (fun n => n != ti && n != tu)) ++ [ti, tu] }
  let bf := fun (r : IdxRow) =>
    { r with promoted := setKey r.promoted colName (extractPath r.rdata (jsSplit field (Char.ofNat 46))) }
  { s2 with rows := s2.rows.map bf }

/-- createIndex of the constraints module over a schema state: the
compound-unique check precedes every schema mutation; then each trimmed
field is promoted, and without unique a CREATE INDEX IF NOT EXISTS adds the
derived index name. The second component is the thrown error, if any. -/
def createIndexRun (tableName : String) (s : IdxState) (fields : String) (unique : Bool) :
    IdxState × Option String :=
  let fieldList := (jsSplit fields (Char.ofNat 44)).map jsTrim
  if unique ∧ fieldList.length > 1 then
    (s, some "Unique constraint can only be applied to single fields")
  else
    let s1 := fieldList.foldl (fun st f => promoteField tableName st f) s
    let s2 :=
      if unique then s1
      else
        let idxName := "idx_" ++ tableName ++ "_" ++ sanitize (String.intercalate "_" fieldList)
        if idxName ∈ s1.indexes then s1
        else { s1 with indexes := s1.indexes ++ [idxName] }
    (s2, none)

end Idx

-- ### Helper lemmas ###

lemma str_len_ne (a b : String) (h : a.length ≠ b.length) : a ≠ b :=
  fun he => h (congrArg String.length he)

lemma begin_ne_savepoint (d : Nat) :
    ("BEGIN;" : String) ≠ "SAVEPOINT sp_" ++ toString d ++ ";" := by
  apply str_len_ne
  rw [String.length_append, String.length_append]
  have h1 : ("SAVEPOINT sp_" : String).length = 13 := by decide
  have h2 : (";" : String).length = 1 := by decide
  have h3 : ("BEGIN;" : String).length = 6 := by decide
  omega

lemma commit_ne_release (d : Nat) :
    ("COMMIT;" : String) ≠ "RELEASE SAVEPOINT sp_" ++ toString d ++ ";" := by
  apply str_len_ne
  rw [String.length_append, String.length_append]
  have h1 : ("RELEASE SAVEPOINT sp_" : String).length = 21 := by decide
  have h2 : (";" : String).length = 1 := by decide
  have h3 : ("COMMIT;" : String).length = 7 := by decide
  omega

-- ### C5 ###

/-- Claim C5: in any state of a connection, a begin at depth 0 issues
exactly BEGIN, a begin at positive depth issues exactly the savepoint named
by the current depth (and no BEGIN); a successful commit decrements the
depth, issuing COMMIT exactly when it returns to depth 0 and exactly the
matching RELEASE SAVEPOINT (no COMMIT) when it returns to a positive depth;
begin always increments the depth, and a commit at depth 0 is an error. -/
theorem c5_nested_transaction_protocol (c : Conn.ConnState) :
    ((Conn.beginTransaction c).1.transactionDepth = c.transactionDepth + 1) ∧
    (c.transactionDepth = 0 → (Conn.beginTransaction c).2 = ["BEGIN;"]) ∧
    (0 < c.transactionDepth →
      (Conn.beginTransaction c).2 = ["SAVEPOINT sp_" ++ toString c.transactionDepth ++ ";"] ∧
      "BEGIN;" ∉ (Conn.beginTransaction c).2) ∧
    (c.transactionDepth = 0 → Conn.commitTransaction c = .error "No active transaction") ∧
    (∀ c2 es, Conn.commitTransaction c = .ok (c2, es) →
      c2.transactionDepth + 1 = c.transactionDepth ∧
      (c2.transactionDepth = 0 → es = ["COMMIT;"]) ∧
      (0 < c2.transactionDepth →
        es = ["RELEASE SAVEPOINT sp_" ++ toString c2.transactionDepth ++ ";"] ∧
        "COMMIT;" ∉ es)) := by
  refine ⟨?_, ?_, ?_, ?_, ?_⟩
  · by_cases h : c.transactionDepth = 0 <;> simp [Conn.beginTransaction, h]
  · intro h
    simp [Conn.beginTransaction, h]
  · intro h
    have h0 : ¬ c.transactionDepth = 0 := by omega
    refine ⟨by simp [Conn.beginTransaction, h0], ?_⟩
    simp [Conn.beginTransaction, h0]
    exact begin_ne_savepoint c.transactionDepth
  · intro h
    simp [Conn.commitTransaction, h]
  · intro c2 es hok
    unfold Conn.commitTransaction at hok
    by_cases h0 : c.transactionDepth = 0
    · simp [h0] at hok
    · rw [if_neg h0] at hok
      by_cases hd : c.transactionDepth - 1 = 0
      · rw [if_pos hd] at hok
        simp only [Except.ok.injEq, Prod.mk.injEq] at hok
        obtain ⟨hc2, hes⟩ := hok
        refine ⟨?_, ?_, ?_⟩
        · rw [← hc2]
          simp
          omega
        · intro _
          exact hes.symm
        · intro hpos
          rw [← hc2] at hpos
          simp [hd] at hpos
      · rw [if_neg hd] at hok
        simp only [Except.ok.injEq, Prod.mk.injEq] at hok
        obtain ⟨hc2, hes⟩ := hok
        have hdep : c2.transactionDepth = c.transactionDepth - 1 := by rw [← hc2]
        refine ⟨by omega, ?_, ?_⟩
        · intro hz
          rw [hdep] at hz
          exact absurd hz hd
        · intro _
          refine ⟨by rw [← hes, hdep], ?_⟩
          rw [← hes]
          simp
          exact commit_ne_release (c.transactionDepth - 1)

-- ### C8 ###

/-- Claim C8: createIndex with unique requested over more than one field
(comma-separated) raises before any schema mutation: the state after the
call is exactly the state before it, paired with the thrown error. -/
theorem c8_compound_unique_fails_before_schema_change (t fields : String) (s : Idx.IdxState)
    (h : 1 < (jsSplit fields (Char.ofNat 44)).length) :
    Idx.createIndexRun t s fields true =
      (s, some "Unique constraint can only be applied to single fields") := by
  simp [Idx.createIndexRun, h]

/-- Witness for C8 at the concrete call createIndex("a,b", unique) on an
empty schema. -/
theorem c8_witness :
    1 < (jsSplit "a,b" (Char.ofNat 44)).length ∧
    Idx.createIndexRun "users" ⟨[], [], [], []⟩ "a,b" true =
      (⟨[], [], [], []⟩, some "Unique constraint can only be applied to single fields") :=
  ⟨by decide, c8_compound_unique_fails_before_schema_change "users" "a,b" ⟨[], [], [], []⟩ (by decide)⟩

-- ### C9 helper lemmas ###

lemma map_congr_all {α β : Type} (l : List α) (f g : α → β) (h : ∀ x, f x = g x) :
    l.map f = l.map g := by
  induction l with
  | nil => rfl
  | cons a tl ih => simp [h a, ih]

lemma map_id_of_no_key (d : Doc) (k : String) (v : Value)
    (hall : ∀ kv ∈ d, ¬ (kv.1 == k) = true) :
    d.map (fun kv => if kv.1 == k then (k, v) else kv) = d := by
  induction d with
  | nil => rfl
  | cons a tl ih =>
    simp only [List.map_cons, if_neg (hall a (List.mem_cons_self a tl))]
    rw [ih (fun kv hm => hall kv (List.mem_cons_of_mem a hm))]

lemma setKey_idem (d : Doc) (k : String) (v : Value) :
    setKey (setKey d k v) k v = setKey d k v := by
  unfold setKey
  by_cases h : d.any (fun kv => kv.1 == k)
  · rw [if_pos h]
    have h2 : (d.map (fun kv => if kv.1 == k then (k, v) else kv)).any
        (fun kv => kv.1 == k) = true := by
      obtain ⟨kv, hm, hk⟩ := List.any_eq_true.mp h
      exact List.any_eq_true.mpr
        ⟨(k, v), List.mem_map.mpr ⟨kv, hm, by rw [if_pos hk]⟩, by simp⟩
    rw [if_pos h2, List.map_map]
    apply map_congr_all
    intro kv
    simp only [Function.comp_apply]
    by_cases hk : (kv.1 == k) = true
    · have h1 : (if kv.1 == k then (k, v) else kv) = (k, v) := if_pos hk
      rw [h1]
      simp
    · have h1 : (if kv.1 == k then (k, v) else kv) = kv := if_neg hk
      rw [h1]
      exact h1
  · rw [if_neg h]
    have h2 : ((d ++ [(k, v)]).any (fun kv => kv.1 == k)) = true := by simp
    rw [if_pos h2, List.map_append]
    have hf : d.any (fun kv => kv.1 == k) = false := by
      revert h
      cases d.any (fun kv => kv.1 == k) <;> simp
    rw [map_id_of_no_key d k v (List.any_eq_false.mp hf)]
    simp

/-- The row backfill of one promotion step, named for reuse in proofs. -/
def idxBackfill (f : String) (r : Idx.IdxRow) : Idx.IdxRow :=
  { r with promoted := setKey r.promoted f (Idx.extractPath r.rdata (jsSplit f (Char.ofNat 46))) }

lemma promoteField_cols (t f : String) (s : Idx.IdxState) :
    (Idx.promoteField t s f).cols = if f ∈ s.cols then s.cols else s.cols ++ [f] := by
  by_cases h : f ∈ s.cols <;> simp [Idx.promoteField, h]

lemma promoteField_triggers (t f : String) (s : Idx.IdxState) :
    (Idx.promoteField t s f).triggers =
      (s.triggers.filter (fun n =>
        n != ("sync_" ++ t ++ "_" ++ f ++ "_insert") &&
        n != ("sync_" ++ t ++ "_" ++ f ++ "_update"))) ++
      ["sync_" ++ t ++ "_" ++ f ++ "_insert", "sync_" ++ t ++ "_" ++ f ++ "_update"] := by
  by_cases h : f ∈ s.cols <;> simp [Idx.promoteField, h]

lemma promoteField_rows (t f : String) (s : Idx.IdxState) :
    (Idx.promoteField t s f).rows = s.rows.map (idxBackfill f) := by
  by_cases h : f ∈ s.cols <;> simp [Idx.promoteField, idxBackfill, h]

lemma promoteField_indexes (t f : String) (s : Idx.IdxState) :
    (Idx.promoteField t s f).indexes = s.indexes := by
  by_cases h : f ∈ s.cols <;> simp [Idx.promoteField, h]

lemma idxBackfill_idem (f : String) (r : Idx.IdxRow) :
    idxBackfill f (idxBackfill f r) = idxBackfill f r := by
  simp [idxBackfill, setKey_idem]

lemma promoteField_fixed (t f : String) (s s2 : Idx.IdxState)
    (hc : s2.cols = (Idx.promoteField t s f).cols)
    (ht : s2.triggers = (Idx.promoteField t s f).triggers)
    (hr : s2.rows = (Idx.promoteField t s f).rows) :
    Idx.promoteField t s2 f = s2 := by
  have hcols : (Idx.promoteField t s2 f).cols = s2.cols := by
    rw [promoteField_cols]
    have hf : f ∈ s2.cols := by
      rw [hc, promoteField_cols]
      by_cases hm : f ∈ s.cols
      · rw [if_pos hm]
        exact hm
      · rw [if_neg hm]
        simp
    simp [hf]
  have htrig : (Idx.promoteField t s2 f).triggers = s2.triggers := by
    rw [promoteField_triggers, ht, promoteField_triggers, List.filter_append,
      List.filter_filter]
    simp
  have hrows : (Idx.promoteField t s2 f).rows = s2.rows := by
    rw [promoteField_rows, hr, promoteField_rows, List.map_map]
    exact map_congr_all _ _ _ (fun r => idxBackfill_idem f r)
  have hidx : (Idx.promoteField t s2 f).indexes = s2.indexes := promoteField_indexes t f s2
  calc Idx.promoteField t s2 f
      = ⟨(Idx.promoteField t s2 f).cols, (Idx.promoteField t s2 f).triggers,
         (Idx.promoteField t s2 f).indexes, (Idx.promoteField t s2 f).rows⟩ := rfl
    _ = ⟨s2.cols, s2.triggers, s2.indexes, s2.rows⟩ := by rw [hcols, htrig, hidx, hrows]
    _ = s2 := rfl

/-- The index name derived for a single promoted field. -/
def singleIdxName (t x : String) : String :=
  "idx_" ++ t ++ "_" ++ Idx.sanitize (String.intercalate "_" [x])

lemma createIndexRun_single_unique (t fields x : String) (s : Idx.IdxState)
    (h : (jsSplit fields (Char.ofNat 44)).map jsTrim = [x]) :
    Idx.createIndexRun t s fields true = (Idx.promoteField t s x, none) := by
  unfold Idx.createIndexRun
  rw [h]
  simp

lemma createIndexRun_single_nonunique (t fields x : String) (s : Idx.IdxState)
    (h : (jsSplit fields (Char.ofNat 44)).map jsTrim = [x]) :
    Idx.createIndexRun t s fields false =
      ((if singleIdxName t x ∈ (Idx.promoteField t s x).indexes
        then Idx.promoteField t s x
        else { Idx.promoteField t s x with
                indexes := (Idx.promoteField t s x).indexes ++ [singleIdxName t x] }),
       none) := by
  unfold Idx.createIndexRun
  rw [h]
  simp [singleIdxName]

-- ### C9 ###

/-- Claim C9: promoting the same (single) field path twice through
createIndex is idempotent: the schema state (columns, triggers, indexes and
the promoted values of every row) after the second promotion equals the
state after the first. -/
theorem c9_promote_twice_idempotent (t fields g : String) (s : Idx.IdxState) (u : Bool)
    (h : jsSplit fields (Char.ofNat 44) = [g]) :
    Idx.createIndexRun t (Idx.createIndexRun t s fields u).1 fields u =
      Idx.createIndexRun t s fields u := by
  have hmap : (jsSplit fields (Char.ofNat 44)).map jsTrim = [jsTrim g] := by
    rw [h]
    rfl
  cases u
  · rw [createIndexRun_single_nonunique t fields (jsTrim g) s hmap]
    by_cases hm : singleIdxName t (jsTrim g) ∈ (Idx.promoteField t s (jsTrim g)).indexes
    · rw [if_pos hm]
      rw [createIndexRun_single_nonunique t fields (jsTrim g) _ hmap]
      rw [promoteField_fixed t (jsTrim g) s _ rfl rfl rfl]
      rw [if_pos hm]
    · rw [if_neg hm]
      rw [createIndexRun_single_nonunique t fields (jsTrim g) _ hmap]
      rw [promoteField_fixed t (jsTrim g) s
        { Idx.promoteField t s (jsTrim g) with
            indexes := (Idx.promoteField t s (jsTrim g)).indexes ++ [singleIdxName t (jsTrim g)] }
        rfl rfl rfl]
      rw [if_pos (by simp)]
  · rw [createIndexRun_single_unique t fields (jsTrim g) s hmap]
    rw [createIndexRun_single_unique t fields (jsTrim g) _ hmap]
    rw [promoteField_fixed t (jsTrim g) s _ rfl rfl rfl]

/-- Witness for C9 at the concrete promotion of the email path with a
uniqueness request on an empty schema. -/
theorem c9_witness :
    jsSplit "email" (Char.ofNat 44) = ["email"] ∧
    Idx.createIndexRun "users"
        (Idx.createIndexRun "users" ⟨[], [], [], []⟩ "email" true).1 "email" true =
      Idx.createIndexRun "users" ⟨[], [], [], []⟩ "email" true :=
  ⟨by decide,
   c9_promote_twice_idempotent "users" "email" "email" ⟨[], [], [], []⟩ true (by decide)⟩

-- ### C10 ###

/-- Claim C10: a deleteMany whose filter compiles to the empty predicate is
rejected with an error before the DELETE statement is built, leaving the
table unchanged; an implicit whole-collection delete never happens. -/
theorem c10_deleteMany_requires_filter (em : String → List Value → Ops.OpsRow → Bool)
    (table : List Ops.OpsRow) (filter : Doc) (ps : List Value)
    (h : Ops.buildWhereClause filter = .ok ("", ps)) :
    Ops.deleteManyRun em table filter =
      (table, .error "deleteMany requires a filter to prevent accidental deletion of all documents") := by
  unfold Ops.deleteManyRun
  rw [h]
  simp

/-- Witness for C10: the empty filter on a one-row table. -/
theorem c10_witness :
    Ops.buildWhereClause [] = .ok ("", []) ∧
    Ops.deleteManyRun (fun _ _ _ => true) [⟨1, vObj []⟩] [] =
      ([⟨1, vObj []⟩],
       .error "deleteMany requires a filter to prevent accidental deletion of all documents") :=
  ⟨rfl, c10_deleteMany_requires_filter (fun _ _ _ => true) [⟨1, vObj []⟩] [] [] rfl⟩

-- ### C1 ###

/-- Claim C1 (amended): in the operations module, updateMany whose update
carries no truthy $set value raises the missing-set error before any SQL
runs and leaves every stored row unchanged. (The Collection-class
updateMany of src/collection.ts instead treats an update without
$set/$unset/$inc as a wholesale body replacement, see the counterexample.) -/
theorem c1_updateMany_missing_set (em : String → List Value → Ops.OpsRow → Bool) (nextId : Int)
    (table : List Ops.OpsRow) (filter update : Doc) (upsert : Bool)
    (h : truthy (jsGet update "$set") = false) :
    Ops.updateManyRun em nextId table filter update upsert =
      (table, .error "updateMany requires $set operator") := by
  unfold Ops.updateManyRun
  rw [h]
  simp

/-- Witness for C1 at the empty update document on an empty table. -/
theorem c1_witness :
    truthy (jsGet [] "$set") = false ∧
    Ops.updateManyRun (fun _ _ _ => true) 1 [] [] [] false =
      ([], .error "updateMany requires $set operator") :=
  ⟨rfl, c1_updateMany_missing_set (fun _ _ _ => true) 1 [] [] [] false rfl⟩

/-- Counterexample to C1 as stated: the Collection-class updateMany, given
an update without any $set key, mutates the matched row (wholesale body
replacement) and reports success instead of raising. -/
theorem c1_counterexample :
    Coll.updateMany (fun _ _ _ => false) "g1" [⟨"a", [("name", vStr "old")]⟩] []
        [("name", vStr "x")] false =
      .ok ([⟨"a", [("name", vStr "x")]⟩], ⟨1, 1, 0, none⟩) ∧
    ([("name", vStr "x")] : Doc) ≠ [("name", vStr "old")] := by
  constructor
  · rfl
  · intro hcon
    have h1 := List.head_eq_of_cons_eq hcon
    have h2 := congrArg Prod.snd h1
    simp at h2

-- ### C2 helper lemmas ###

lemma jsTrim_ne_empty (s : String) (c : Char) (hc : c ∈ s.data) (hsp : isJsSpace c = false) :
    jsTrim s ≠ "" := by
  intro hcon
  have hdata : ((s.data.dropWhile isJsSpace).reverse.dropWhile isJsSpace).reverse = [] :=
    congrArg String.data hcon
  have hd2 : (s.data.dropWhile isJsSpace).reverse.dropWhile isJsSpace = [] :=
    List.reverse_eq_nil_iff.mp hdata
  have hall := List.dropWhile_eq_nil_iff.mp hd2
  by_cases hmem : c ∈ s.data.dropWhile isJsSpace
  · have hcontra := hall c (List.mem_reverse.mpr hmem)
    rw [hsp] at hcontra
    cases hcontra
  · have htw : c ∈ s.data.takeWhile isJsSpace := by
      have hsplit := List.takeWhile_append_dropWhile (p := isJsSpace) (l := s.data)
      rw [← hsplit] at hc
      rcases List.mem_append.mp hc with h1 | h2
      · exact h1
      · exact absurd h2 hmem
    have hcontra := List.mem_takeWhile_imp htw
    rw [hsp] at hcontra
    cases hcontra

lemma trim_jsonExtract_ne (f suffix : String) : jsTrim (jsonExtract f ++ suffix) ≠ "" := by
  apply jsTrim_ne_empty _ (Char.ofNat 74) _ (by decide)
  have hJ : Char.ofNat 74 ∈ ("JSON_EXTRACT(data, " : String).data := by decide
  simp [jsonExtract, String.data_append, List.mem_append, hJ]

lemma intercalate_single (sep c : String) : String.intercalate sep [c] = c := rfl

/-- The values of JS type string, number or boolean. -/
def isPrimitive : Value → Bool
  | vStr _ => true
  | vNum _ => true
  | vBool _ => true
  | _ => false

-- ### C2 ###

/-- Claim C2 (amended): for every field other than the identifier fields id
and _id, and every primitive (string, number or boolean) value, compiling
the literal-equality filter and compiling the $eq operator form produce the
same predicate text and the same parameter list — in both compilers. (For
identifier fields the two forms differ, see the counterexample.) -/
theorem c2_literal_vs_eq_operator (f : String) (v : Value)
    (hf1 : f ≠ "id") (hf2 : f ≠ "_id") (hv : isPrimitive v = true) :
    Ops.buildWhereClause [(f, v)] = Ops.buildWhereClause [(f, vObj [("$eq", v)])] ∧
    QB.buildWhereClause [(f, v)] = QB.buildWhereClause [(f, vObj [("$eq", v)])] := by
  have hsw : jsStartsWith "$eq" "$" = true := by decide
  have htr := trim_jsonExtract_ne f " = ?"
  cases v with
  | vStr s =>
    constructor
    · simp only [Ops.buildWhereClause, Ops.filterFold, Ops.entryCond, Ops.operatorFold,
        Ops.operatorCond, Ops.literalParam, hf1, hf2, intercalate_single]
      rfl
    · simp [QB.buildWhereClause, QB.whereFold, QB.buildFieldCondition,
        QB.buildOperatorCondition, QB.opFold, QB.opCondStep, QB.eqParam, hf2, hsw, htr,
        intercalate_single]
  | vNum n =>
    constructor
    · simp only [Ops.buildWhereClause, Ops.filterFold, Ops.entryCond, Ops.operatorFold,
        Ops.operatorCond, Ops.literalParam, hf1, hf2, intercalate_single]
      rfl
    · simp [QB.buildWhereClause, QB.whereFold, QB.buildFieldCondition,
        QB.buildOperatorCondition, QB.opFold, QB.opCondStep, QB.eqParam, hf2, hsw, htr,
        intercalate_single]
  | vBool b =>
    constructor
    · simp only [Ops.buildWhereClause, Ops.filterFold, Ops.entryCond, Ops.operatorFold,
        Ops.operatorCond, Ops.literalParam, hf1, hf2, intercalate_single]
      rfl
    · simp [QB.buildWhereClause, QB.whereFold, QB.buildFieldCondition,
        QB.buildOperatorCondition, QB.opFold, QB.opCondStep, QB.eqParam, hf2, hsw, htr,
        intercalate_single]
  | vNull => cases hv
  | vArr l => cases hv
  | vObj o => cases hv

/-- Witness for C2 at the field age and the string value bob. -/
theorem c2_witness :
    Ops.buildWhereClause [("age", vStr "bob")] =
      Ops.buildWhereClause [("age", vObj [("$eq", vStr "bob")])] ∧
    QB.buildWhereClause [("age", vStr "bob")] =
      QB.buildWhereClause [("age", vObj [("$eq", vStr "bob")])] :=
  c2_literal_vs_eq_operator "age" (vStr "bob") (by decide) (by decide) rfl

/-- Counterexample to C2 as stated: on the identifier field, the literal
form passes the raw value as the parameter while the $eq operator form
passes the whole operator object — same text, different parameter lists. -/
theorem c2_counterexample :
    Ops.buildWhereClause [("id", vNum 5)] = .ok ("WHERE id = ?", [vNum 5]) ∧
    Ops.buildWhereClause [("id", vObj [("$eq", vNum 5)])] =
      .ok ("WHERE id = ?", [vObj [("$eq", vNum 5)]]) ∧
    (vNum 5 : Value) ≠ vObj [("$eq", vNum 5)] := by
  refine ⟨rfl, rfl, ?_⟩
  intro hcon
  exact Value.noConfusion hcon


-- ### C3 helper lemmas ###

/-- The operator keys the switch in buildWhereClause of src/operations.ts
recognizes ($regex is not among them: it falls to the throwing default). -/
def opsSupported (op : String) : Bool :=
  op = "$eq" || op = "$ne" || op = "$gt" || op = "$gte" || op = "$lt" || op = "$lte" ||
    op = "$in" || op = "$nin" || op = "$exists"

lemma operatorFold_cons (key op : String) (ov : Value) (rest : List (String × Value)) :
    Ops.operatorFold key ((op, ov) :: rest) = (do
      let (c, p) ← Ops.operatorCond key op ov
      let (cs, ps) ← Ops.operatorFold key rest
      .ok (c ++ cs, p ++ ps)) := rfl

lemma filterFold_cons (e : String × Value) (rest : Doc) :
    Ops.filterFold (e :: rest) = (do
      let (c, p) ← Ops.entryCond e
      let (cs, ps) ← Ops.filterFold rest
      .ok (c ++ cs, p ++ ps)) := rfl

lemma entryCond_nonid (key : String) (value : Value) (hid : ¬ (key = "id" ∨ key = "_id")) :
    Ops.entryCond (key, value) =
      (match value with
       | vObj kvs => Ops.operatorFold key kvs
       | vArr l => Ops.operatorFold key (jsEntries (vArr l))
       | vBool b => .ok ([jsonExtract key ++ " = ?"], [vNum (if b then 1 else 0)])
       | vStr s => .ok ([jsonExtract key ++ " = ?"], [vStr s])
       | v => .ok ([jsonExtract key ++ " = ?"], [vStr (jsonStringify v)])) := by
  show (if key = "id" ∨ key = "_id" then
      (Except.ok (["id = ?"], [value]) : Except String (List String × List Value))
    else _) = _
  rw [if_neg hid]

lemma entryCond_obj (key : String) (kvs : List (String × Value))
    (hid : ¬ (key = "id" ∨ key = "_id")) :
    Ops.entryCond (key, vObj kvs) = Ops.operatorFold key kvs := by
  rw [entryCond_nonid key (vObj kvs) hid]

lemma entryCond_id (key : String) (value : Value) (hid : key = "id" ∨ key = "_id") :
    Ops.entryCond (key, value) = .ok (["id = ?"], [value]) := by
  show (if key = "id" ∨ key = "_id" then
      (Except.ok (["id = ?"], [value]) : Except String (List String × List Value))
    else _) = _
  rw [if_pos hid]

lemma operatorCond_error_of_unsupported (key op : String) (ov : Value)
    (h : opsSupported op = false) :
    Ops.operatorCond key op ov = .error ("Unsupported operator: " ++ op) := by
  unfold opsSupported at h
  simp only [Bool.or_eq_false_iff, decide_eq_false_iff_not] at h
  obtain ⟨⟨⟨⟨⟨⟨⟨⟨h1, h2⟩, h3⟩, h4⟩, h5⟩, h6⟩, h7⟩, h8⟩, h9⟩ := h
  simp [Ops.operatorCond, h1, h2, h3, h4, h5, h6, h7, h8, h9]

lemma operatorCond_ok_of_supported (key op : String) (ov : Value)
    (h : opsSupported op = true) :
    ∃ r, Ops.operatorCond key op ov = .ok r := by
  unfold opsSupported at h
  simp only [Bool.or_eq_true, decide_eq_true_eq] at h
  rcases h with ((((((((h | h) | h) | h) | h) | h) | h) | h) | h) <;> subst h <;>
    cases ov <;> simp [Ops.operatorCond]

lemma operatorCond_error_shape (key op : String) (ov : Value) (m : String)
    (h : Ops.operatorCond key op ov = .error m) :
    opsSupported op = false ∧ m = "Unsupported operator: " ++ op := by
  by_cases hs : opsSupported op = true
  · obtain ⟨r, hr⟩ := operatorCond_ok_of_supported key op ov hs
    rw [hr] at h
    cases h
  · have hs' : opsSupported op = false := by
      revert hs
      cases opsSupported op <;> simp
    rw [operatorCond_error_of_unsupported key op ov hs'] at h
    refine ⟨hs', ?_⟩
    injection h with hm
    exact hm.symm

lemma operatorFold_error_shape (key : String) (kvs : List (String × Value)) (m : String)
    (h : Ops.operatorFold key kvs = .error m) :
    ∃ k, opsSupported k = false ∧ m = "Unsupported operator: " ++ k := by
  induction kvs with
  | nil => cases h
  | cons a rest ih =>
    obtain ⟨op, ov⟩ := a
    rw [operatorFold_cons] at h
    cases hoc : Ops.operatorCond key op ov with
    | error e =>
      rw [hoc] at h
      have h2 : (Except.error e : Except String (List String × List Value)) = .error m := h
      injection h2 with hme
      obtain ⟨hs, hm⟩ := operatorCond_error_shape key op ov e hoc
      exact ⟨op, hs, by rw [← hme]; exact hm⟩
    | ok r =>
      rw [hoc] at h
      cases hof : Ops.operatorFold key rest with
      | error e2 =>
        rw [hof] at h
        have h2 : (Except.error e2 : Except String (List String × List Value)) = .error m := h
        injection h2 with hme
        exact ih (by rw [hof, hme])
      | ok r2 =>
        rw [hof] at h
        have h2 : (Except.ok (r.1 ++ r2.1, r.2 ++ r2.2) :
          Except String (List String × List Value)) = .error m := h
        cases h2

lemma operatorFold_error_of_bad (key : String) (kvs : List (String × Value))
    (h : ∃ p ∈ kvs, opsSupported p.1 = false) :
    ∃ k, opsSupported k = false ∧
      Ops.operatorFold key kvs = .error ("Unsupported operator: " ++ k) := by
  induction kvs with
  | nil =>
    obtain ⟨p, hp, _⟩ := h
    cases hp
  | cons a rest ih =>
    obtain ⟨op, ov⟩ := a
    by_cases ha : opsSupported op = false
    · refine ⟨op, ha, ?_⟩
      rw [operatorFold_cons, operatorCond_error_of_unsupported key op ov ha]
      rfl
    · have ha' : opsSupported op = true := by
        revert ha
        cases opsSupported op <;> simp
      obtain ⟨r, hr⟩ := operatorCond_ok_of_supported key op ov ha'
      have h' : ∃ p ∈ rest, opsSupported p.1 = false := by
        obtain ⟨p, hp, hps⟩ := h
        rcases List.mem_cons.mp hp with he | hm
        · rw [he] at hps
          rw [hps] at ha'
          cases ha'
        · exact ⟨p, hm, hps⟩
      obtain ⟨k, hk, hfold⟩ := ih h'
      refine ⟨k, hk, ?_⟩
      rw [operatorFold_cons, hr, hfold]
      rfl

lemma entryCond_error_shape (e : String × Value) (m : String)
    (h : Ops.entryCond e = .error m) :
    ∃ k, opsSupported k = false ∧ m = "Unsupported operator: " ++ k := by
  obtain ⟨key, value⟩ := e
  by_cases hid : key = "id" ∨ key = "_id"
  · rw [entryCond_id key value hid] at h
    cases h
  · rw [entryCond_nonid key value hid] at h
    cases value with
    | vObj kvs => exact operatorFold_error_shape key kvs m h
    | vArr l => exact operatorFold_error_shape key (jsEntries (vArr l)) m h
    | vNull => cases h
    | vBool b => cases h
    | vNum n => cases h
    | vStr s => cases h

-- ### C3 ###

/-- Claim C3 (amended): whenever a filter holds a non-identifier entry whose
operator object contains a key outside the set recognized by the
operations-module compiler ($eq, $ne, $gt, $gte, $lt, $lte, $in, $nin,
$exists — $regex is outside it there), compilation raises
"Unsupported operator: <key>" naming such a key; nothing is silently
dropped. (The QueryBuilder compiler instead drops unrecognized operators
silently, see the counterexample.) -/
theorem c3_unsupported_operator_raises (filter : Doc) (f : String)
    (kvs : List (String × Value))
    (hmem : (f, vObj kvs) ∈ filter) (hf1 : f ≠ "id") (hf2 : f ≠ "_id")
    (hbad : ∃ p ∈ kvs, opsSupported p.1 = false) :
    ∃ k, opsSupported k = false ∧
      Ops.buildWhereClause filter = .error ("Unsupported operator: " ++ k) := by
  have hid : ¬ (f = "id" ∨ f = "_id") := not_or.mpr ⟨hf1, hf2⟩
  have hmain : ∃ k, opsSupported k = false ∧
      Ops.filterFold filter = .error ("Unsupported operator: " ++ k) := by
    induction filter with
    | nil => cases hmem
    | cons e rest ih =>
      rcases List.mem_cons.mp hmem with he | hm
      · obtain ⟨k, hk, herr⟩ := operatorFold_error_of_bad f kvs hbad
        refine ⟨k, hk, ?_⟩
        rw [← he, filterFold_cons, entryCond_obj f kvs hid, herr]
        rfl
      · cases hec : Ops.entryCond e with
        | error m =>
          obtain ⟨k, hk, hm'⟩ := entryCond_error_shape e m hec
          refine ⟨k, hk, ?_⟩
          rw [filterFold_cons, hec, hm']
          rfl
        | ok r =>
          obtain ⟨k, hk, hrec⟩ := ih hm
          refine ⟨k, hk, ?_⟩
          rw [filterFold_cons, hec, hrec]
          rfl
  obtain ⟨k, hk, hff⟩ := hmain
  refine ⟨k, hk, ?_⟩
  have hne : filter.isEmpty = false := by
    cases filter with
    | nil => cases hmem
    | cons a l => rfl
  unfold Ops.buildWhereClause
  rw [hne]
  rw [hff]
  rfl

/-- Witness for C3 at the concrete filter with the unknown operator $foo:
the operations-module compiler raises naming the key. -/
theorem c3_witness :
    Ops.buildWhereClause [("name", vObj [("$foo", vNum 1)])] =
      .error ("Unsupported operator: $foo") := by
  obtain ⟨k, hk, he⟩ := c3_unsupported_operator_raises
    [("name", vObj [("$foo", vNum 1)])] "name" [("$foo", vNum 1)]
    (by simp) (by decide) (by decide) ⟨("$foo", vNum 1), by simp, by decide⟩
  have hr : Ops.buildWhereClause [("name", vObj [("$foo", vNum 1)])] =
      .error ("Unsupported operator: $foo") := rfl
  rw [he]
  rw [he] at hr
  exact hr

/-- Counterexample to C3 as stated: the QueryBuilder compiler, on the same
unknown operator, raises nothing and silently drops the condition — the
compiled predicate is empty. -/
theorem c3_counterexample :
    QB.buildWhereClause [("name", vObj [("$foo", vNum 1)])] = ("", []) := rfl

-- ### C6 helper lemmas ###

lemma qmarks_chars (l : List Value) :
    ∀ c ∈ (qmarks l).data, c = Char.ofNat 63 ∨ c = Char.ofNat 44 ∨ c = Char.ofNat 32 := by
  induction l with
  | nil =>
    intro c hc
    simp [qmarks] at hc
  | cons a rest ih =>
    intro c hc
    cases rest with
    | nil =>
      rw [show qmarks [a] = "?" from rfl] at hc
      have he : ("?" : String).data = [Char.ofNat 63] := by decide
      rw [he] at hc
      simp at hc
      exact Or.inl hc
    | cons b rest2 =>
      rw [show qmarks (a :: b :: rest2) = "?" ++ ", " ++ qmarks (b :: rest2) from rfl] at hc
      rw [String.data_append, String.data_append] at hc
      rcases List.mem_append.mp hc with h1 | h2
      · rcases List.mem_append.mp h1 with ha | hb
        · have he : ("?" : String).data = [Char.ofNat 63] := by decide
          rw [he] at ha
          simp at ha
          exact Or.inl ha
        · have he : (", " : String).data = [Char.ofNat 44, Char.ofNat 32] := by decide
          rw [he] at hb
          simp at hb
          rcases hb with h | h
          · exact Or.inr (Or.inl h)
          · exact Or.inr (Or.inr h)
      · exact ih c h2

lemma no_json_extract_of_no_J (s : String) (h : Char.ofNat 74 ∉ s.data) :
    ¬ (("JSON_EXTRACT" : String).data <:+: s.data) := by
  intro hinf
  exact h (hinf.sublist.subset (by decide))

/-- The _id IN condition text built by the QueryBuilder. -/
def qbIdInCond (l : List Value) : String := "_id" ++ " IN (" ++ qmarks l ++ ")"

/-- The _id NOT IN condition text built by the QueryBuilder. -/
def qbIdNinCond (l : List Value) : String := "_id" ++ " NOT IN (" ++ qmarks l ++ ")"

lemma no_J_pre_qmarks_post (pre post : String) (l : List Value)
    (hpre : Char.ofNat 74 ∉ pre.data) (hpost : Char.ofNat 74 ∉ post.data) :
    Char.ofNat 74 ∉ (pre ++ qmarks l ++ post).data := by
  intro hc
  rw [String.data_append, String.data_append] at hc
  rcases List.mem_append.mp hc with h1 | h2
  · rcases List.mem_append.mp h1 with ha | hb
    · exact hpre ha
    · rcases qmarks_chars l _ hb with h | h | h <;> exact absurd h (by decide)
  · exact hpost h2

lemma trim_ne_pre (pre mid post : String) (c : Char) (hc : c ∈ pre.data)
    (hsp : isJsSpace c = false) : jsTrim (pre ++ mid ++ post) ≠ "" :=
  jsTrim_ne_empty _ c (by
    rw [String.data_append, String.data_append]
    exact List.mem_append_left _ (List.mem_append_left _ hc)) hsp

-- ### C6 ###

/-- Claim C6 (amended): identifier-field filter entries never touch the
serialized body. The operations-module compiler always emits exactly
id = ? with the raw operand as the single parameter (even when the operand
is an operator object — see the counterexample for the $in case); the
QueryBuilder compiles _id with a $in or $nin list to an IN / NOT IN
condition over the raw element list. None of these condition texts contains
the JSON_EXTRACT path-extraction expression. -/
theorem c6_identifier_direct_comparison (v : Value) (l : List Value) :
    Ops.buildWhereClause [("id", v)] = .ok ("WHERE id = ?", [v]) ∧
    Ops.buildWhereClause [("_id", v)] = .ok ("WHERE id = ?", [v]) ∧
    ¬ (("JSON_EXTRACT" : String).data <:+: ("WHERE id = ?" : String).data) ∧
    QB.buildWhereClause [("_id", vObj [("$in", vArr l)])] =
      ("WHERE " ++ qbIdInCond l, l) ∧
    QB.buildWhereClause [("_id", vObj [("$nin", vArr l)])] =
      ("WHERE " ++ qbIdNinCond l, l) ∧
    ¬ (("JSON_EXTRACT" : String).data <:+: ("WHERE " ++ qbIdInCond l).data) ∧
    ¬ (("JSON_EXTRACT" : String).data <:+: ("WHERE " ++ qbIdNinCond l).data) := by
  have htr1 : jsTrim ("_id IN (" ++ qmarks l ++ ")") ≠ "" :=
    trim_ne_pre "_id IN (" (qmarks l) ")" (Char.ofNat 95) (by decide) (by decide)
  have htr2 : jsTrim ("_id NOT IN (" ++ qmarks l ++ ")") ≠ "" :=
    trim_ne_pre "_id NOT IN (" (qmarks l) ")" (Char.ofNat 95) (by decide) (by decide)
  have hsc : QB.strContains "_id" "JSON_EXTRACT" = false := by decide
  refine ⟨rfl, rfl, by decide, ?_, ?_, ?_, ?_⟩
  · simp [QB.buildWhereClause, QB.whereFold, QB.buildFieldCondition, QB.buildOperatorCondition,
      QB.opFold, QB.opCondStep, hsc, htr1, intercalate_single, qbIdInCond]
  · simp [QB.buildWhereClause, QB.whereFold, QB.buildFieldCondition, QB.buildOperatorCondition,
      QB.opFold, QB.opCondStep, hsc, htr2, intercalate_single, qbIdNinCond]
  · apply no_json_extract_of_no_J
    intro hc
    rw [String.data_append] at hc
    rcases List.mem_append.mp hc with h1 | h2
    · exact absurd h1 (by decide)
    · exact no_J_pre_qmarks_post ("_id" ++ " IN (") ")" l (by decide) (by decide) h2
  · apply no_json_extract_of_no_J
    intro hc
    rw [String.data_append] at hc
    rcases List.mem_append.mp hc with h1 | h2
    · exact absurd h1 (by decide)
    · exact no_J_pre_qmarks_post ("_id" ++ " NOT IN (") ")" l (by decide) (by decide) h2

/-- Counterexample to C6 as stated: on the identifier field with a $in list
operand, the operations-module compiler does not emit an IN list — it emits
id = ? with the whole operator object as the parameter. -/
theorem c6_counterexample :
    Ops.buildWhereClause [("id", vObj [("$in", vArr [vNum 1, vNum 2])])] =
      .ok ("WHERE id = ?", [vObj [("$in", vArr [vNum 1, vNum 2])]]) ∧
    ¬ (("IN (" : String).data <:+: ("WHERE id = ?" : String).data) :=
  ⟨rfl, by decide⟩

-- ### C7 ###

/-- Claim C7 (amended): the QueryBuilder pagination path never emits a bare
OFFSET — with only a skip it emits the LIMIT 999999999 sentinel before the
OFFSET, and with a limit it emits LIMIT n (plus OFFSET m when a skip is
given). The find of src/operations.ts, however, appends a bare OFFSET with
no LIMIT clause whenever only a skip is given (see the counterexample). -/
theorem c7_skip_without_limit (n m : Int) (table : String) (filter : Doc) (wc : String)
    (ps : List Value) (hm : m ≠ 0)
    (h : Ops.buildWhereClause filter = .ok (wc, ps)) :
    QB.buildLimitClause ⟨none, some m⟩ = "LIMIT 999999999 OFFSET " ++ toString m ∧
    QB.buildLimitClause ⟨some n, some m⟩ =
      "LIMIT " ++ toString n ++ " OFFSET " ++ toString m ∧
    QB.buildLimitClause ⟨some n, none⟩ = "LIMIT " ++ toString n ∧
    Ops.findSql table filter ⟨none, some m, []⟩ =
      .ok ("SELECT id, data, created_at, updated_at FROM " ++ table ++ " " ++ wc ++ " " ++
        Ops.buildOrderClause [] ++ " OFFSET " ++ toString m, ps) := by
  have hb : (m != 0) = true := by
    simp [bne_iff_ne]
    exact hm
  refine ⟨rfl, rfl, rfl, ?_⟩
  unfold Ops.findSql
  rw [h]
  simp only [hb, if_true]
  rfl

/-- Witness for C7 with skip 5 and the empty filter on the users table. -/
theorem c7_witness :
    QB.buildLimitClause ⟨none, some 5⟩ = "LIMIT 999999999 OFFSET " ++ toString (5 : Int) ∧
    QB.buildLimitClause ⟨some 2, some 5⟩ =
      "LIMIT " ++ toString (2 : Int) ++ " OFFSET " ++ toString (5 : Int) ∧
    QB.buildLimitClause ⟨some 2, none⟩ = "LIMIT " ++ toString (2 : Int) ∧
    Ops.findSql "users" [] ⟨none, some 5, []⟩ =
      .ok ("SELECT id, data, created_at, updated_at FROM " ++ "users" ++ " " ++ "" ++ " " ++
        Ops.buildOrderClause [] ++ " OFFSET " ++ toString (5 : Int), []) :=
  c7_skip_without_limit 2 5 "users" [] "" [] (by decide) rfl

/-- Counterexample to C7 as stated: the find of src/operations.ts, given a
skip and no limit, produces SQL that contains OFFSET but no LIMIT at all. -/
theorem c7_counterexample :
    Ops.findSql "users" [] ⟨none, some 5, []⟩ =
      .ok ("SELECT id, data, created_at, updated_at FROM users   OFFSET 5", []) ∧
    ¬ (("LIMIT" : String).data <:+:
        ("SELECT id, data, created_at, updated_at FROM users   OFFSET 5" : String).data) ∧
    (("OFFSET" : String).data <:+:
        ("SELECT id, data, created_at, updated_at FROM users   OFFSET 5" : String).data) :=
  ⟨rfl, by decide, by decide⟩

-- ### C4 helper lemmas ###

lemma beq_symm_false {a b : String} (h : (a == b) = false) : (b == a) = false := by
  have hne : a ≠ b := by simpa using h
  simpa using hne.symm

lemma lookup_map_replace (d : Doc) (k : String) (v : Value)
    (h : d.any (fun kv => kv.1 == k) = true) :
    (d.map (fun kv => if kv.1 == k then (k, v) else kv)).lookup k = some v := by
  induction d with
  | nil => simp at h
  | cons a rest ih =>
    obtain ⟨a1, a2⟩ := a
    by_cases he : a1 = k
    · subst he
      simp [List.lookup_cons]
    · have h1 : (a1 == k) = false := by simpa using he
      have h2 : (k == a1) = false := beq_symm_false h1
      have hr : rest.any (fun kv => kv.1 == k) = true := by
        simp only [List.any_cons] at h
        rcases Bool.or_eq_true_iff.mp h with hx | hx
        · simp at hx
          exact absurd hx he
        · exact hx
      simp only [List.map_cons, h1, Bool.false_eq_true, if_false, List.lookup_cons, h2]
      exact ih hr

lemma lookup_append_missing (d : Doc) (k : String) (v : Value)
    (h : d.any (fun kv => kv.1 == k) = false) :
    (d ++ [(k, v)]).lookup k = some v := by
  induction d with
  | nil => simp [List.lookup_cons]
  | cons a rest ih =>
    obtain ⟨a1, a2⟩ := a
    simp only [List.any_cons, Bool.or_eq_false_iff] at h
    have h1 : (a1 == k) = false := h.1
    have h2 : (k == a1) = false := beq_symm_false h1
    rw [List.cons_append, List.lookup_cons]
    simp only [h2]
    exact ih h.2

lemma lookup_setKey (d : Doc) (k : String) (v : Value) :
    (setKey d k v).lookup k = some v := by
  unfold setKey
  by_cases h : d.any (fun kv => kv.1 == k)
  · rw [if_pos h]
    exact lookup_map_replace d k v h
  · rw [if_neg h]
    have hf : d.any (fun kv => kv.1 == k) = false := by
      revert h
      cases d.any (fun kv => kv.1 == k) <;> simp
    exact lookup_append_missing d k v hf

lemma jsGet_setKey (d : Doc) (k : String) (v : Value) : jsGet (setKey d k v) k = v := by
  unfold jsGet
  rw [lookup_setKey]

lemma filter_ne_key (d : Doc) (k : String) (h : d.any (fun kv => kv.1 == k) = false) :
    d.filter (fun kv => kv.1 != k) = d := by
  induction d with
  | nil => rfl
  | cons a rest ih =>
    simp only [List.any_cons, Bool.or_eq_false_iff] at h
    have ha : (a.1 != k) = true := by
      simp [bne, h.1]
    rw [List.filter_cons, if_pos ha, ih h.2]

lemma removeKey_setKey_absent (d : Doc) (k : String) (v : Value)
    (h : d.any (fun kv => kv.1 == k) = false) :
    removeKey (setKey d k v) k = d := by
  unfold setKey removeKey
  rw [if_neg (by simp [h])]
  rw [List.filter_append, filter_ne_key d k h]
  simp

lemma lookup_none_of_no_key (d : Doc) (k : String) (h : d.any (fun kv => kv.1 == k) = false) :
    d.lookup k = none := by
  induction d with
  | nil => rfl
  | cons a rest ih =>
    obtain ⟨a1, a2⟩ := a
    simp only [List.any_cons, Bool.or_eq_false_iff] at h
    have h2 : (k == a1) = false := beq_symm_false h.1
    rw [List.lookup_cons]
    simp only [h2]
    exact ih h.2

lemma insertOne_fresh (genId : String) (table : List Coll.CRow) (document : Doc)
    (hnoid : document.any (fun kv => kv.1 == "_id") = false)
    (hfresh : table.any (fun r => r.rid == genId) = false) :
    Coll.insertOne genId table document = .ok (table ++ [⟨genId, document⟩], genId) := by
  have htr : truthy (jsGet document "_id") = false := by
    unfold jsGet
    rw [lookup_none_of_no_key document "_id" hnoid]
    rfl
  simp only [Coll.insertOne, htr, Bool.false_eq_true, if_false, jsGet_setKey, jsToString,
    removeKey_setKey_absent document "_id" (vStr genId) hnoid, hfresh]

-- ### C4 ###

/-- Claim C4 (amended): with upsert requested and a filter matching zero
rows, the updateMany of src/operations.ts inserts a document that is
exactly the $set document — the filter fields are not merged — and reports
matchedCount 0, modifiedCount 0 and the fresh id on upsertedId; the
Collection-class updateMany of src/collection.ts inserts the whole filter
object (operator values included, verbatim) with the $set fields assigned
over it, and reports upsertedCount 1 with the inserted id. -/
theorem c4_upsert_document_synthesis
    (em : String → List Value → Ops.OpsRow → Bool) (nextId : Int) (table : List Ops.OpsRow)
    (cem : String → List Value → Coll.CRow → Bool) (genId : String) (ctable : List Coll.CRow)
    (filter update : Doc) (wc : String) (ps : List Value)
    (hset : truthy (jsGet update "$set") = true)
    (hwc : Ops.buildWhereClause filter = .ok (wc, ps))
    (hnone : Ops.matching em table wc ps = [])
    (hcnone : Coll.findRows cem ctable filter none = [])
    (hnoid : (objAssign (objAssign [] filter) (spreadFields (jsGet update "$set"))).any
      (fun kv => kv.1 == "_id") = false)
    (hfresh : ctable.any (fun r => r.rid == genId) = false) :
    Ops.updateManyRun em nextId table filter update true =
      (table ++ [⟨nextId, jsGet update "$set"⟩], .ok ⟨0, 0, some nextId⟩) ∧
    Coll.updateMany cem genId ctable filter update true =
      .ok (ctable ++ [⟨genId,
            objAssign (objAssign [] filter) (spreadFields (jsGet update "$set"))⟩],
        ⟨0, 0, 1, some genId⟩) := by
  constructor
  · unfold Ops.updateManyRun
    rw [hset, hwc]
    simp only [Bool.not_true, Bool.false_eq_true, if_false]
    rw [hnone]
    rfl
  · unfold Coll.updateMany Coll.updateDocuments
    rw [if_pos (Or.inl hset)]
    unfold Coll.handleUpdateOperators
    rw [show (if true = true then (none : Option Nat) else some 1) = none from rfl, hcnone]
    rw [if_pos (by constructor <;> rfl)]
    rw [hset]
    simp only [if_true]
    rw [insertOne_fresh genId ctable
      (objAssign (objAssign [] filter) (spreadFields (jsGet update "$set"))) hnoid hfresh]

/-- Witness for C4 at a concrete zero-match upsert: filter on name, $set of
age, on empty tables. -/
theorem c4_witness :
    Ops.updateManyRun (fun _ _ _ => false) 7 [] [("name", vStr "a")]
        [("$set", vObj [("age", vNum 1)])] true =
      ([⟨7, jsGet [("$set", vObj [("age", vNum 1)])] "$set"⟩], .ok ⟨0, 0, some 7⟩) ∧
    Coll.updateMany (fun _ _ _ => false) "oid1" [] [("name", vStr "a")]
        [("$set", vObj [("age", vNum 1)])] true =
      .ok ([⟨"oid1", objAssign (objAssign [] [("name", vStr "a")])
            (spreadFields (jsGet [("$set", vObj [("age", vNum 1)])] "$set"))⟩],
        ⟨0, 0, 1, some "oid1"⟩) :=
  c4_upsert_document_synthesis (fun _ _ _ => false) 7 [] (fun _ _ _ => false) "oid1" []
    [("name", vStr "a")] [("$set", vObj [("age", vNum 1)])]
    ("WHERE " ++ jsonExtract "name" ++ " = ?") [vStr "a"]
    rfl rfl rfl rfl rfl rfl

/-- Counterexample to C4 as stated: the operations-module upsert inserts
only the $set document; the literal filter field name is absent from the
inserted document, so it is not the claimed merge of the two. -/
theorem c4_counterexample :
    Ops.updateManyRun (fun _ _ _ => false) 7 [] [("name", vStr "a")]
        [("$set", vObj [("age", vNum 1)])] true =
      ([⟨7, vObj [("age", vNum 1)]⟩], .ok ⟨0, 0, some 7⟩) ∧
    (vObj [("age", vNum 1)] : Value) ≠
      vObj (objAssign [("name", vStr "a")] [("age", vNum 1)]) := by
  constructor
  · rfl
  · intro hcon
    have h2 : ([("age", vNum 1)] : Doc) = objAssign [("name", vStr "a")] [("age", vNum 1)] := by
      injection hcon
    have h3 : ([("age", vNum 1)] : Doc) = [("name", vStr "a"), ("age", vNum 1)] := h2
    simp at h3
